import Mathlib

/-!
Shallow embedding of the `video-to-image` frame extractor
(`src/extractor.py` and `run.py`) and proofs about its behaviour.

Modelling conventions:
* Python floats are modelled as rationals (all arithmetic in the program is
  exact on the inputs considered: sums, products, divisions of decimals).
* A seek-plus-decode at a frame position is modelled by an oracle
  `read : ℤ → Bool` saying whether a frame decodes at that position.
* A raised exception is an `Except`/`Option` error value; the error kind
  records the Python exception class.
* Strings manipulated character-wise are `List Char`; produced file names
  are Lean `String`s.
-/

namespace VideoToImage

/-- Python exception classes that the modelled code can raise. -/
inductive PyError where
  | valueError
  | attributeError
  | zeroDivisionError
deriving DecidableEq, Repr

/-- The `Literal["jpg", "png"]` output-format parameter of `VideoExtractor`. -/
inductive OutputFormat where
  | jpg
  | png
deriving DecidableEq, Repr

/-- `VideoExtractor.FORMAT_EXTENSIONS` (extractor.py lines 9-13), restricted to
the two values admitted by the `Literal["jpg", "png"]` annotation. -/
def FORMAT_EXTENSIONS : OutputFormat → String
  | .jpg => ".jpg"
  | .png => ".png"

/-- Python's `str.split(sep)` for a one-character separator, on `List Char`. -/
def splitOnChar (sep : Char) : List Char → List (List Char)
  | [] => [[]]
  | c :: rest =>
      let r := splitOnChar sep rest
      if c = sep then [] :: r
      else (c :: r.headI) :: r.tail

/-- Value of a digit string read in base 10 (leading zeros allowed). -/
def natOfDigits (l : List Char) : ℕ :=
  l.foldl (fun a c => 10 * a + (c.toNat - '0'.toNat)) 0

/-- Characters admitted by the fragment of Python `float()` that we model. -/
def isFloatChar (c : Char) : Bool := c.isDigit || c == '.'

/-- Python's built-in `float(s)`, restricted to unsigned decimal literals
(`digits`, `digits.digits`, `.digits`, `digits.`); every other string —
in particular any string containing a character that is neither a digit
nor a dot, such as `:` — raises `ValueError`, modelled as `none`.
(Signs, exponents, `inf`/`nan` and whitespace are outside the fragment the
program's claims exercise.) -/
def pyFloat (l : List Char) : Option ℚ :=
  if l.all isFloatChar then
    match splitOnChar '.' l with
    | [ip] => if ip.isEmpty then none else some (natOfDigits ip)
    | [ip, fp] =>
        if ip.isEmpty && fp.isEmpty then none
        else some ((natOfDigits ip : ℚ) + (natOfDigits fp : ℚ) / 10 ^ fp.length)
    | _ => none
  else none

/-- Python's `int(x)` on a float: truncation toward zero. -/
def pyInt (q : ℚ) : ℤ := if 0 ≤ q then ⌊q⌋ else ⌈q⌉

/-- Python's `//` on integers: floor division, raising `ZeroDivisionError`
on a zero divisor. -/
def pyFloorDiv (a b : ℤ) : Except PyError ℤ :=
  if b = 0 then .error .zeroDivisionError else .ok (a.fdiv b)

/-- `parse_timestamp` (run.py lines 17-29): `H:M:S` and `M:S` forms are tried
under a `try`/`except ValueError: pass`, after which control falls through to
`float(value)`; `none` models an uncaught `ValueError`. -/
def parse_timestamp (value : List Char) : Option ℚ :=
  if ':' ∈ value then
    let parts := splitOnChar ':' value
    if parts.length = 3 then
      match parts.map pyFloat with
      | [some h, some m, some s] => some (h * 3600 + m * 60 + s)
      | _ => pyFloat value
    else if parts.length = 2 then
      match parts.map pyFloat with
      | [some m, some s] => some (m * 60 + s)
      | _ => pyFloat value
    else pyFloat value
  else pyFloat value

/-- `VideoExtractor._format_filename` (extractor.py lines 48-51):
`padding = len(str(total))`, then `f"frame_{index:0{padding}d}{ext}"`. -/
def format_filename (index total : ℕ) (fmt : OutputFormat) : String :=
  let padding := (toString total).length
  let s := toString index
  "frame_" ++ String.mk (List.replicate (padding - s.length) '0') ++ s
    ++ FORMAT_EXTENSIONS fmt

example : parse_timestamp ("90".toList)
    = some ((natOfDigits ['9', '0'] : ℚ)) := rfl

example : format_filename 7 999 .jpg = "frame_007.jpg" := rfl

example : format_filename 7 10 .jpg = "frame_07.jpg" := rfl

/-- Outcome of a strategy call that opens the decoder: the returned value or
raised error, the `(source position, file name)` pairs written, and whether
`cap.release()` was reached. -/
structure CountResult where
  result : Except PyError (List (ℤ × String))
  opened : Bool
  released : Bool
deriving Repr

/-- One iteration of the `for i in range(count)` loop of `extract_by_count`
(extractor.py lines 100-108): seek to `min(i * interval, total_frames - 1)`,
read, and on success write `frame_{i+1:0...d}`. -/
def count_attempt (total_frames interval : ℤ) (read : ℤ → Bool) (count : ℕ)
    (fmt : OutputFormat) (i : ℕ) : Option (ℤ × String) :=
  let frame_position := min ((i : ℤ) * interval) (total_frames - 1)
  if read frame_position then
    some (frame_position, format_filename (i + 1) count fmt)
  else none

/-- The `for` loop of `extract_by_count`, running iterations `i, i+1, ...`
with `r` iterations remaining. -/
def count_loop (total_frames interval : ℤ) (read : ℤ → Bool) (count : ℕ)
    (fmt : OutputFormat) : ℕ → ℕ → List (ℤ × String)
  | _, 0 => []
  | i, r + 1 =>
      match count_attempt total_frames interval read count fmt i with
      | some x => x :: count_loop total_frames interval read count fmt (i + 1) r
      | none => count_loop total_frames interval read count fmt (i + 1) r

/-- `VideoExtractor.extract_by_count` (extractor.py lines 87-111).
`count < 1` raises `ValueError` before `_open_video` is called; otherwise
`interval = max(1, total_frames // count)` and the loop runs, and the
capture is released at the end. -/
def extract_by_count (total_frames : ℤ) (read : ℤ → Bool) (count : ℤ)
    (fmt : OutputFormat) : CountResult :=
  if count < 1 then ⟨.error .valueError, false, false⟩
  else
    let interval := max 1 (total_frames.fdiv count)
    ⟨.ok (count_loop total_frames interval read count.toNat fmt 0 count.toNat),
      true, true⟩

/-- The `while True` loop shared by `extract_by_interval` (extractor.py
lines 68-82) and the inline copy in `process_video` (run.py lines 152-162):
seek to `frame_position`, read, stop at the first failed read, otherwise
write `frame_{frame_index:03d}` (the padding total is the literal `999`)
and advance by `step`. `fuel` bounds the number of iterations modelled;
the Python loop has no such bound. -/
def interval_loop (step : ℤ) (read : ℤ → Bool) (fmt : OutputFormat) :
    ℤ → ℕ → ℕ → List (ℤ × String)
  | _, _, 0 => []
  | pos, idx, fuel + 1 =>
      if read pos then
        (pos, format_filename idx 999 fmt)
          :: interval_loop step read fmt (pos + step) (idx + 1) fuel
      else []

/-- The step `interval_frames = max(1, int(fps * interval_seconds))` of
`extract_by_interval` (extractor.py lines 59-62). -/
def strategy_interval_step (fps interval_seconds : ℚ) : ℤ :=
  max 1 (pyInt (fps * interval_seconds))

/-- `VideoExtractor.extract_by_interval` (extractor.py lines 53-85):
positions start at 0, index at 1. -/
def extract_by_interval (fps interval_seconds : ℚ) (read : ℤ → Bool)
    (fmt : OutputFormat) (fuel : ℕ) : List (ℤ × String) :=
  interval_loop (strategy_interval_step fps interval_seconds) read fmt 0 1 fuel

/-- Whether the `while True` loop of `extract_by_interval` reaches its
`break` (extractor.py line 73) within `fuel` iterations — the loop's only
exit, after which control flows to `self.cap.release()` on line 84. -/
def interval_breaks (step : ℤ) (read : ℤ → Bool) : ℤ → ℕ → Bool
  | _, 0 => false
  | pos, fuel + 1 =>
      if read pos then interval_breaks step read (pos + step) fuel else true

/-- Outcome of `extract_by_interval` with resource bookkeeping. -/
structure IntervalResult where
  extracted : List (ℤ × String)
  opened : Bool
  released : Bool
deriving Repr

/-- `VideoExtractor.extract_by_interval` (extractor.py lines 53-85) with
resource bookkeeping: the capture is opened on line 57 before the loop, and
released on line 84 exactly when the loop has exited via its `break`
(within the modelled fuel). Nothing inside the loop raises. -/
def extract_by_interval_run (fps interval_seconds : ℚ) (read : ℤ → Bool)
    (fmt : OutputFormat) (fuel : ℕ) : IntervalResult :=
  let step := strategy_interval_step fps interval_seconds
  ⟨interval_loop step read fmt 0 1 fuel, true, interval_breaks step read 0 fuel⟩

/-- A Python value passed as the `timestamp` argument of
`extract_at_timestamp`: the CLI passes the float produced by argparse's
`type=parse_timestamp`; direct callers pass a string. -/
inductive PyVal where
  | str (s : List Char)
  | float (q : ℚ)
deriving DecidableEq, Repr

/-- The timestamp-parsing block of `extract_at_timestamp` (extractor.py
lines 120-131): unlike run.py's `parse_timestamp` there is no
`try`/`except`, so a failed component conversion and a wrong number of
colon-separated parts both raise `ValueError` (`none`). A non-string
falls to `float(timestamp)`, the identity on a float. -/
def targetTime : PyVal → Option ℚ
  | .str s =>
      if ':' ∈ s then
        let parts := splitOnChar ':' s
        if parts.length = 3 then
          match parts.map pyFloat with
          | [some h, some m, some sec] => some (h * 3600 + m * 60 + sec)
          | _ => none
        else if parts.length = 2 then
          match parts.map pyFloat with
          | [some m, some sec] => some (m * 60 + sec)
          | _ => none
        else none
      else pyFloat s
  | .float q => some q

/-- Python's `s.replace(a, b)` for one-character arguments. -/
def pyReplace (s : List Char) (a b : Char) : List Char :=
  s.map fun c => if c = a then b else c

/-- The output path `f"frame_at_{timestamp.replace(':', '-')}{ext}"` of
extractor.py line 141. `.replace` is a `str` method; on the float the CLI
passes, attribute lookup raises `AttributeError`. -/
def timestampFilename : PyVal → OutputFormat → Except PyError String
  | .str s, fmt =>
      .ok ("frame_at_" ++ String.mk (pyReplace s ':' '-') ++ FORMAT_EXTENSIONS fmt)
  | .float _, _ => .error .attributeError

/-- `frame_position = int(target_time * fps)` (extractor.py line 133). -/
def timestampPosition (fps target_time : ℚ) : ℤ := pyInt (target_time * fps)

/-- Outcome of `extract_at_timestamp`. -/
structure TsResult where
  result : Except PyError String
  written : List (ℤ × String)
  released : Bool
deriving Repr

/-- `VideoExtractor.extract_at_timestamp` (extractor.py lines 113-145).
The capture is opened first; a parse failure, a failed read and an
`AttributeError` while building the file name all raise before
`self.cap.release()` on line 144 is reached. -/
def extract_at_timestamp (fps : ℚ) (read : ℤ → Bool) (timestamp : PyVal)
    (fmt : OutputFormat) : TsResult :=
  match targetTime timestamp with
  | none => ⟨.error .valueError, [], false⟩
  | some target_time =>
      let frame_position := timestampPosition fps target_time
      if read frame_position then
        match timestampFilename timestamp fmt with
        | .ok path => ⟨.ok path, [(frame_position, path)], true⟩
        | .error e => ⟨.error e, [], false⟩
      else ⟨.error .valueError, [], false⟩

/-- `duration` as computed by `_get_duration` (extractor.py lines 43-46). -/
def get_duration (total_frames : ℤ) (fps : ℚ) : ℚ :=
  if 0 < fps then (total_frames : ℚ) / fps else 0

/-- The frame spacing computed by `process_video`'s interval branch
(run.py lines 130-136): `estimated_frames = int(duration / args.interval)`
then `interval_frames = max(1, total_video_frames // estimated_frames)`,
a `ZeroDivisionError` when `estimated_frames` is 0. -/
def batch_interval_step (total_frames : ℤ) (duration interval_seconds : ℚ) :
    Except PyError ℤ :=
  let estimated_frames := pyInt (duration / interval_seconds)
  match pyFloorDiv total_frames estimated_frames with
  | .ok q => .ok (max 1 q)
  | .error e => .error e

/-- `process_video`'s interval branch (run.py lines 130-166) wrapped in the
per-video `except` handlers (lines 176-184): an exception prints an error
and returns `False`; on success Python returns the `extracted` list, whose
truthiness (non-emptiness) is what `main`'s `all(results)` later sees. -/
def process_video_interval (total_frames : ℤ) (duration interval_seconds : ℚ)
    (read : ℤ → Bool) (fmt : OutputFormat) (fuel : ℕ) : Bool × List (ℤ × String) :=
  match batch_interval_step total_frames duration interval_seconds with
  | .error _ => (false, [])
  | .ok step =>
      let extracted := interval_loop step read fmt 0 1 fuel
      (!extracted.isEmpty, extracted)

/-- `process_video`'s timestamp branch (run.py lines 124-128) wrapped in the
per-video `except` handlers: `True` on success, `False` when
`extract_at_timestamp` raises. -/
def process_video_timestamp (fps : ℚ) (read : ℤ → Bool) (timestamp : PyVal)
    (fmt : OutputFormat) : Bool × List (ℤ × String) :=
  let r := extract_at_timestamp fps read timestamp fmt
  match r.result with
  | .ok _ => (true, r.written)
  | .error _ => (false, r.written)

/-- Outcome of `main`: process exit code, the videos that `process_video`
was invoked on, and the missing files listed in the pre-check's error
report. -/
structure MainResult (V : Type) where
  exitCode : ℕ
  processed : List V
  reportedMissing : List V
deriving DecidableEq, Repr

/-- `main` (run.py lines 187-215): the pre-check lists every missing input
and calls `sys.exit(1)` before any video is processed; otherwise every
video is processed and the exit code is 0 when `all(results)` holds and 1
in both the partial- and the total-failure branch. -/
def main {V : Type} (videos : List V) (exists_check : V → Bool)
    (process : V → Bool) : MainResult V :=
  let missing := videos.filter fun v => !(exists_check v)
  if missing.isEmpty then
    let results := videos.map process
    ⟨if results.all id then 0 else 1, videos, []⟩
  else ⟨1, [], missing⟩

/-! ## Helper lemmas -/

theorem splitOnChar_ne_nil (sep : Char) (l : List Char) : splitOnChar sep l ≠ [] := by
  induction l with
  | nil => simp [splitOnChar]
  | cons c rest ih =>
      simp only [splitOnChar]
      split <;> simp

theorem length_splitOnChar (sep : Char) (l : List Char) :
    (splitOnChar sep l).length = l.count sep + 1 := by
  induction l with
  | nil => simp [splitOnChar]
  | cons c rest ih =>
      have hpos : 0 < (splitOnChar sep rest).length :=
        List.length_pos.mpr (splitOnChar_ne_nil sep rest)
      by_cases h : c = sep
      · simp [splitOnChar, h, ih, List.count_cons]
      · simp only [splitOnChar, if_neg h, List.length_cons, List.length_tail,
          List.count_cons]
        have hb : (c == sep) = false := by simpa using h
        simp [hb]
        omega

theorem pyFloat_of_not_floatChar {l : List Char} {c : Char}
    (hc : c ∈ l) (hf : isFloatChar c = false) : pyFloat l = none := by
  have hall : l.all isFloatChar = false := by
    rw [List.all_eq_false]
    exact ⟨c, hc, by simp [hf]⟩
  simp [pyFloat, hall]

theorem pyInt_eq_floor {q : ℚ} (h : 0 ≤ q) : pyInt q = ⌊q⌋ := if_pos h

theorem pyInt_eq_zero {q : ℚ} (h0 : 0 ≤ q) (h1 : q < 1) : pyInt q = 0 := by
  rw [pyInt_eq_floor h0]
  exact Int.floor_eq_zero_iff.mpr ⟨h0, h1⟩

/-- The `for` loop of `extract_by_count`, as a `filterMap` over the iteration
indices it visits. -/
theorem count_loop_eq (T interval : ℤ) (read : ℤ → Bool) (c : ℕ)
    (fmt : OutputFormat) (r i : ℕ) :
    count_loop T interval read c fmt i r
      = (List.range' i r).filterMap (count_attempt T interval read c fmt) := by
  induction r generalizing i with
  | zero => rfl
  | succ r ih =>
      rw [List.range'_succ, List.filterMap_cons]
      cases h : count_attempt T interval read c fmt i with
      | none => simp [count_loop, h, ih]
      | some x => simp [count_loop, h, ih]

/-- The `while True` loop of the interval strategies: if reads succeed at the
first `n` visited positions and fail at the `(n+1)`-st, and the fuel covers
them, the loop writes exactly the frames at `pos, pos + step, …,
pos + (n-1) * step`, with consecutive file-name indices. -/
theorem interval_loop_eq (step : ℤ) (read : ℤ → Bool) (fmt : OutputFormat)
    (n : ℕ) : ∀ (pos : ℤ) (idx fuel : ℕ), n < fuel →
    (∀ k < n, read (pos + (k : ℤ) * step) = true) →
    read (pos + (n : ℤ) * step) = false →
    interval_loop step read fmt pos idx fuel
      = (List.range n).map
          fun k : ℕ => (pos + (k : ℤ) * step, format_filename (idx + k) 999 fmt) := by
  induction n with
  | zero =>
      intro pos idx fuel hfuel _ hfail
      obtain ⟨f, rfl⟩ : ∃ f, fuel = f + 1 := ⟨fuel - 1, by omega⟩
      have : read pos = false := by simpa using hfail
      simp [interval_loop, this]
  | succ n ih =>
      intro pos idx fuel hfuel hok hfail
      obtain ⟨f, rfl⟩ : ∃ f, fuel = f + 1 := ⟨fuel - 1, by omega⟩
      have h0 : read pos = true := by simpa using hok 0 (by omega)
      have hstep : interval_loop step read fmt pos idx (f + 1)
          = (pos, format_filename idx 999 fmt)
            :: interval_loop step read fmt (pos + step) (idx + 1) f := by
        simp [interval_loop, h0]
      rw [hstep, ih (pos + step) (idx + 1) f (by omega)
        (fun k hk => by
          have e : pos + step + (k : ℤ) * step = pos + ((k : ℤ) + 1) * step := by
            ring
          rw [e]
          have h := hok (k + 1) (by omega)
          push_cast at h
          exact h)
        (by
          have e : pos + step + (n : ℤ) * step = pos + ((n : ℤ) + 1) * step := by
            ring
          rw [e]
          push_cast at hfail
          exact hfail)]
      rw [List.range_succ_eq_map, List.map_cons, List.map_map]
      congr 1
      · simp
      · refine List.map_congr_left fun k _ => ?_
        simp only [Function.comp_apply, Nat.succ_eq_add_one]
        refine Prod.ext ?_ ?_
        · show pos + step + (k : ℤ) * step = pos + ((k + 1 : ℕ) : ℤ) * step
          push_cast
          ring
        · show format_filename (idx + 1 + k) 999 fmt
            = format_filename (idx + (k + 1)) 999 fmt
          have e : idx + 1 + k = idx + (k + 1) := by omega
          rw [e]

/-- Every file name written by the interval loop carries the constant
padding total 999. -/
theorem interval_loop_pad (step : ℤ) (read : ℤ → Bool) (fmt : OutputFormat) :
    ∀ (fuel : ℕ) (pos : ℤ) (idx : ℕ),
    ∀ pr ∈ interval_loop step read fmt pos idx fuel,
      ∃ k, pr.2 = format_filename k 999 fmt := by
  intro fuel
  induction fuel with
  | zero => intro pos idx pr h; simp [interval_loop] at h
  | succ f ih =>
      intro pos idx pr h
      by_cases hr : read pos = true
      · simp only [interval_loop, hr, if_true, List.mem_cons] at h
        rcases h with h | h
        · exact ⟨idx, by rw [h]⟩
        · exact ih (pos + step) (idx + 1) pr h
      · simp [interval_loop, hr] at h

/-- If some read among the first `fuel` visited positions fails, the
interval loop reaches its `break` within the fuel budget. -/
theorem interval_breaks_of_fail (step : ℤ) (read : ℤ → Bool) :
    ∀ (fuel : ℕ) (pos : ℤ) (n : ℕ), n < fuel →
      read (pos + (n : ℤ) * step) = false →
      interval_breaks step read pos fuel = true := by
  intro fuel
  induction fuel with
  | zero => intro pos n hn _; omega
  | succ f ih =>
      intro pos n hn hfail
      by_cases hr : read pos = true
      · cases n with
        | zero =>
            have h0 : read pos = false := by simpa using hfail
            simp [hr] at h0
        | succ m =>
            simp only [interval_breaks, hr, if_true]
            have e : pos + step + (m : ℤ) * step = pos + ((m : ℤ) + 1) * step := by
              ring
            push_cast at hfail
            exact ih (pos + step) m (by omega) (by rw [e]; exact hfail)
      · simp [interval_breaks, hr]

/-! ## Claims -/

/-- C1: for every `count ≥ 1` and a video with `total_frames = T`,
`extract_by_count` writes at most `count` frames; the frame written with
output index `i + 1` is read from source position
`min(i * max(1, T // count), T - 1)`; positions whose read fails are
silently skipped (the call still returns `ok`); and the call raises
`ValueError` if and only if `count < 1`, before opening the video. -/
theorem C1_count_strategy (T c : ℤ) (read : ℤ → Bool) (fmt : OutputFormat) :
    ((extract_by_count T read c fmt).result = .error .valueError ↔ c < 1) ∧
    (c < 1 → (extract_by_count T read c fmt).opened = false) ∧
    (1 ≤ c →
      ∃ l, (extract_by_count T read c fmt).result = .ok l ∧
        l.length ≤ c.toNat ∧
        l = (List.range c.toNat).filterMap
              (count_attempt T (max 1 (T.fdiv c)) read c.toNat fmt) ∧
        ∀ pr ∈ l, ∃ i : ℕ, (i : ℤ) < c ∧
          pr.1 = min ((i : ℤ) * max 1 (T.fdiv c)) (T - 1) ∧
          pr.2 = format_filename (i + 1) c.toNat fmt ∧ read pr.1 = true) := by
  by_cases hc : c < 1
  · exact ⟨by simp [extract_by_count, hc],
      fun _ => by simp [extract_by_count, hc],
      fun h => absurd h (by omega)⟩
  · refine ⟨by simp [extract_by_count, hc], fun h => absurd h hc, fun _ => ?_⟩
    refine ⟨count_loop T (max 1 (T.fdiv c)) read c.toNat fmt 0 c.toNat,
      by simp [extract_by_count, hc], ?_, ?_, ?_⟩
    · rw [count_loop_eq]
      exact le_trans (List.length_filterMap_le _ _) (by simp)
    · rw [count_loop_eq, List.range_eq_range']
    · intro pr hpr
      rw [count_loop_eq] at hpr
      obtain ⟨i, hi, hatt⟩ := List.mem_filterMap.mp hpr
      have hiR : i < c.toNat := by
        have := List.mem_range'_1.mp hi
        omega
      simp only [count_attempt] at hatt
      by_cases hread : read (min ((i : ℤ) * max 1 (T.fdiv c)) (T - 1)) = true
      · rw [if_pos hread] at hatt
        obtain rfl := Option.some_injective _ hatt
        exact ⟨i, by omega, rfl, rfl, hread⟩
      · rw [if_neg hread] at hatt
        exact absurd hatt (by simp)

/-- Witness for C1 at `T = 10`, `count = 4`, every position readable. -/
theorem C1_count_strategy_witness :
    (1 : ℤ) ≤ 4 ∧
      ∃ l, (extract_by_count 10 (fun _ => true) 4 .jpg).result = .ok l ∧
        l.length ≤ (4 : ℤ).toNat ∧
        l = (List.range (4 : ℤ).toNat).filterMap
              (count_attempt 10 (max 1 (Int.fdiv 10 4)) (fun _ => true)
                (4 : ℤ).toNat .jpg) ∧
        ∀ pr ∈ l, ∃ i : ℕ, (i : ℤ) < 4 ∧
          pr.1 = min ((i : ℤ) * max 1 (Int.fdiv 10 4)) (10 - 1) ∧
          pr.2 = format_filename (i + 1) (4 : ℤ).toNat .jpg ∧
          (fun _ : ℤ => true) pr.1 = true :=
  ⟨by norm_num, (C1_count_strategy 10 4 (fun _ => true) .jpg).2.2 (by norm_num)⟩

/-- C2: for `interval_seconds > 0` (and the decoder's nonnegative fps), the
interval strategy's step is `max(1, ⌊fps * interval_seconds⌋)`; when reads
succeed at the first `n` multiples of the step and fail at the `n`-th, the
extraction returns exactly the frames at `0, step, …, (n-1)*step`; every
written position is a multiple of the step, positions are strictly
increasing, and iteration stops at the first failed read. -/
theorem C2_interval_strategy (fps interval_seconds : ℚ) (read : ℤ → Bool)
    (fmt : OutputFormat) (n fuel : ℕ)
    (hI : 0 < interval_seconds) (hfps : 0 ≤ fps)
    (hok : ∀ k : ℕ, k < n →
      read ((k : ℤ) * strategy_interval_step fps interval_seconds) = true)
    (hfail : read ((n : ℤ) * strategy_interval_step fps interval_seconds) = false)
    (hfuel : n < fuel) :
    strategy_interval_step fps interval_seconds
      = max 1 ⌊fps * interval_seconds⌋ ∧
    extract_by_interval fps interval_seconds read fmt fuel
      = (List.range n).map (fun k : ℕ =>
          ((k : ℤ) * strategy_interval_step fps interval_seconds,
            format_filename (1 + k) 999 fmt)) ∧
    (∀ pr ∈ extract_by_interval fps interval_seconds read fmt fuel,
        strategy_interval_step fps interval_seconds ∣ pr.1) ∧
    List.Pairwise (fun a b : ℤ × String => a.1 < b.1)
      (extract_by_interval fps interval_seconds read fmt fuel) := by
  have hstep_pos : (0 : ℤ) < strategy_interval_step fps interval_seconds :=
    lt_of_lt_of_le one_pos (le_max_left _ _)
  have hcf : extract_by_interval fps interval_seconds read fmt fuel
      = (List.range n).map (fun k : ℕ =>
          ((k : ℤ) * strategy_interval_step fps interval_seconds,
            format_filename (1 + k) 999 fmt)) := by
    have h := interval_loop_eq (strategy_interval_step fps interval_seconds)
      read fmt n 0 1 fuel hfuel
      (fun k hk => by simpa using hok k hk)
      (by simpa using hfail)
    simpa [extract_by_interval] using h
  refine ⟨?_, hcf, ?_, ?_⟩
  · show max 1 (pyInt (fps * interval_seconds)) = max 1 ⌊fps * interval_seconds⌋
    rw [pyInt_eq_floor (mul_nonneg hfps (le_of_lt hI))]
  · intro pr hpr
    rw [hcf] at hpr
    obtain ⟨k, _, rfl⟩ := List.mem_map.mp hpr
    exact Dvd.intro_left _ rfl
  · rw [hcf, List.pairwise_map]
    refine (List.pairwise_lt_range n).imp fun {a b} hab => ?_
    exact mul_lt_mul_of_pos_right (by exact_mod_cast hab) hstep_pos

/-- Witness for C2 at `fps = 2`, `interval_seconds = 1` (step 2), reads
succeeding at 0 and 2 and failing at 4. -/
theorem C2_interval_strategy_witness :
    (0 : ℚ) < 1 ∧
    (strategy_interval_step 2 1 = max 1 ⌊(2 : ℚ) * 1⌋ ∧
      extract_by_interval 2 1 (fun p : ℤ => p == 0 || p == 2) .jpg 5
        = (List.range 2).map (fun k : ℕ =>
            ((k : ℤ) * strategy_interval_step 2 1,
              format_filename (1 + k) 999 .jpg)) ∧
      (∀ pr ∈ extract_by_interval 2 1 (fun p : ℤ => p == 0 || p == 2) .jpg 5,
          strategy_interval_step 2 1 ∣ pr.1) ∧
      List.Pairwise (fun a b : ℤ × String => a.1 < b.1)
        (extract_by_interval 2 1 (fun p : ℤ => p == 0 || p == 2) .jpg 5)) := by
  have hstep : strategy_interval_step 2 1 = 2 := by
    norm_num [strategy_interval_step, pyInt]
  refine ⟨by norm_num, C2_interval_strategy 2 1 _ .jpg 2 5 (by norm_num)
    (by norm_num) ?_ ?_ (by norm_num)⟩
  · intro k hk
    rw [hstep]
    interval_cases k <;> decide
  · rw [hstep]
    decide

/-- C3 as stated is false: in a batch of three videos `[0, 1, 2]` where only
video 1 is missing, `main` exits with code 1 but processes nothing — the
existing videos 0 and 2 are not processed, because the missing-file
pre-check calls `sys.exit(1)` before the per-video loop. -/
theorem C3_counterexample :
    (main [0, 1, 2] (fun v : ℕ => v != 1) (fun _ => true)).exitCode = 1 ∧
    (main [0, 1, 2] (fun v : ℕ => v != 1) (fun _ => true)).processed = [] ∧
    (0 : ℕ) ∉ (main [0, 1, 2] (fun v : ℕ => v != 1) (fun _ => true)).processed := by
  refine ⟨rfl, rfl, by decide⟩

/-- C3 amended: in a batch where some input video is missing, the process
exits with code 1 and every missing video is reported individually, but no
video at all is processed: `main` aborts before processing. -/
theorem C3_batch_missing {V : Type} (videos : List V) (exists_check : V → Bool)
    (process : V → Bool) (v₀ : V) (h₀ : v₀ ∈ videos)
    (hmiss : exists_check v₀ = false) :
    (main videos exists_check process).exitCode = 1 ∧
    (main videos exists_check process).processed = [] ∧
    ∀ v ∈ videos, exists_check v = false →
      v ∈ (main videos exists_check process).reportedMissing := by
  have hmem : v₀ ∈ videos.filter fun v => !(exists_check v) :=
    List.mem_filter.mpr ⟨h₀, by simp [hmiss]⟩
  have hne : (videos.filter fun v => !(exists_check v)).isEmpty = false := by
    rcases h : (videos.filter fun v => !(exists_check v)) with _ | _
    · rw [h] at hmem; simp at hmem
    · simp [h]
  refine ⟨by simp [main, hne], by simp [main, hne], ?_⟩
  intro v hv hmv
  simp only [main, hne, Bool.false_eq_true, if_false]
  exact List.mem_filter.mpr ⟨hv, by simp [hmv]⟩

/-- Witness for C3 amended on the batch `[0, 1, 2]` with video 1 missing. -/
theorem C3_batch_missing_witness :
    (1 : ℕ) ∈ [0, 1, 2] ∧
    ((main [0, 1, 2] (fun v : ℕ => v != 1) (fun _ => true)).exitCode = 1 ∧
      (main [0, 1, 2] (fun v : ℕ => v != 1) (fun _ => true)).processed = [] ∧
      ∀ v ∈ [0, 1, 2], (fun v : ℕ => v != 1) v = false →
        v ∈ (main [0, 1, 2] (fun v : ℕ => v != 1) (fun _ => true)).reportedMissing) :=
  ⟨by decide, C3_batch_missing [0, 1, 2] _ _ 1 (by decide) (by decide)⟩

/-- C4: `"01:30"` parses to 90.0 s, `"00:01:30"` to 90.0 s, `"90"` to
90.0 s, and every input with more than two colons raises `ValueError`. -/
theorem C4_parse_timestamp :
    parse_timestamp ("01:30".toList) = some 90 ∧
    parse_timestamp ("00:01:30".toList) = some 90 ∧
    parse_timestamp ("90".toList) = some 90 ∧
    ∀ value : List Char, 2 < value.count ':' → parse_timestamp value = none := by
  refine ⟨?_, ?_, ?_, ?_⟩
  · rw [show parse_timestamp ("01:30".toList)
        = some ((natOfDigits ['0', '1'] : ℚ) * 60 + (natOfDigits ['3', '0'] : ℚ))
        from rfl,
      show natOfDigits ['0', '1'] = 1 from rfl,
      show natOfDigits ['3', '0'] = 30 from rfl]
    norm_num
  · rw [show parse_timestamp ("00:01:30".toList)
        = some ((natOfDigits ['0', '0'] : ℚ) * 3600
            + (natOfDigits ['0', '1'] : ℚ) * 60 + (natOfDigits ['3', '0'] : ℚ))
        from rfl,
      show natOfDigits ['0', '0'] = 0 from rfl,
      show natOfDigits ['0', '1'] = 1 from rfl,
      show natOfDigits ['3', '0'] = 30 from rfl]
    norm_num
  · rw [show parse_timestamp ("90".toList)
        = some ((natOfDigits ['9', '0'] : ℚ)) from rfl,
      show natOfDigits ['9', '0'] = 90 from rfl]
    norm_num
  · intro value hcount
    have hmem : ':' ∈ value := by
      by_contra hnm
      rw [List.count_eq_zero_of_not_mem hnm] at hcount
      omega
    have hnone : pyFloat value = none :=
      pyFloat_of_not_floatChar hmem (by decide)
    have hlen := length_splitOnChar ':' value
    have h3 : ¬ (splitOnChar ':' value).length = 3 := by omega
    have h2 : ¬ (splitOnChar ':' value).length = 2 := by omega
    simp [parse_timestamp, hmem, h3, h2, hnone]

/-- Witness for C4's universal clause at the malformed input `"1:2:3:4"`. -/
theorem C4_parse_timestamp_witness :
    2 < ("1:2:3:4".toList).count ':' ∧
      parse_timestamp ("1:2:3:4".toList) = none :=
  ⟨by decide, C4_parse_timestamp.2.2.2 _ (by decide)⟩

/-- C5 as stated is false: with expected total 10 the padding width is
`len(str(10)) = 2`, so index 7 yields `"frame_07.jpg"`, not
`"frame_7.jpg"`. -/
theorem C5_counterexample :
    format_filename 7 10 .jpg = "frame_07.jpg" ∧
    format_filename 7 10 .jpg ≠ "frame_7.jpg" :=
  ⟨rfl, by decide⟩

/-- C5 amended: file names are zero-padded to the digit width of the total
passed in (total 999, index 7 gives `"frame_007.jpg"`; total 10, index 7
gives `"frame_07.jpg"`), and in interval mode the padding total is the
hard-coded constant 999, not the expected total frame count. -/
theorem C5_padding :
    format_filename 7 999 .jpg = "frame_007.jpg" ∧
    format_filename 7 10 .jpg = "frame_07.jpg" ∧
    ∀ (fps interval_seconds : ℚ) (read : ℤ → Bool) (fmt : OutputFormat)
      (fuel : ℕ),
      ∀ pr ∈ extract_by_interval fps interval_seconds read fmt fuel,
        ∃ k, pr.2 = format_filename k 999 fmt := by
  refine ⟨rfl, rfl, ?_⟩
  intro fps ivl read fmt fuel pr hpr
  exact interval_loop_pad _ read fmt fuel 0 1 pr hpr

/-- Witness for C5 amended: one extracted interval frame, named with the
999-based 3-digit padding. -/
theorem C5_padding_witness :
    ((0 : ℤ), "frame_001.jpg")
        ∈ extract_by_interval 1 1 (fun p : ℤ => p == 0) .jpg 3 ∧
    ∃ k, ((0 : ℤ), "frame_001.jpg").2 = format_filename k 999 OutputFormat.jpg := by
  have hstep : strategy_interval_step 1 1 = 1 := by
    norm_num [strategy_interval_step, pyInt]
  have hmem : ((0 : ℤ), "frame_001.jpg")
      ∈ extract_by_interval 1 1 (fun p : ℤ => p == 0) .jpg 3 := by
    show ((0 : ℤ), "frame_001.jpg")
      ∈ interval_loop (strategy_interval_step 1 1) (fun p : ℤ => p == 0) .jpg 0 1 3
    rw [hstep]
    decide
  exact ⟨hmem, C5_padding.2.2 1 1 (fun p : ℤ => p == 0) .jpg 3 _ hmem⟩

/-- C6: the timestamp strategy's target index is `⌊time_seconds * fps⌋`; at
30 fps, `"00:00:05"` attempts source position 150 and on a successful read
writes exactly that one frame; when no frame decodes there the call raises
`ValueError` (the spec's `ExtractionError`). -/
theorem C6_timestamp_strategy (read : ℤ → Bool) :
    (∀ fps t : ℚ, 0 ≤ fps → 0 ≤ t → timestampPosition fps t = ⌊t * fps⌋) ∧
    (read 150 = true →
      extract_at_timestamp 30 read (.str ("00:00:05".toList)) .jpg
        = ⟨.ok "frame_at_00-00-05.jpg", [(150, "frame_at_00-00-05.jpg")], true⟩) ∧
    (read 150 = false →
      (extract_at_timestamp 30 read (.str ("00:00:05".toList)) .jpg).result
        = .error .valueError) := by
  have ht : targetTime (.str ['0', '0', ':', '0', '0', ':', '0', '5'])
      = some ((natOfDigits ['0', '0'] : ℚ) * 3600
          + (natOfDigits ['0', '0'] : ℚ) * 60 + (natOfDigits ['0', '5'] : ℚ)) := rfl
  have ht5 : targetTime (.str ['0', '0', ':', '0', '0', ':', '0', '5'])
      = some 5 := by
    rw [ht, show natOfDigits ['0', '0'] = 0 from rfl,
      show natOfDigits ['0', '5'] = 5 from rfl]
    norm_num
  have hpos : timestampPosition 30 5 = 150 := by
    norm_num [timestampPosition, pyInt]
  have hfn : timestampFilename (.str ['0', '0', ':', '0', '0', ':', '0', '5']) .jpg
      = .ok "frame_at_00-00-05.jpg" := rfl
  refine ⟨?_, ?_, ?_⟩
  · intro fps t hfps ht'
    exact pyInt_eq_floor (mul_nonneg ht' hfps)
  · intro h
    simp [extract_at_timestamp, ht5, hpos, h, hfn]
  · intro h
    simp [extract_at_timestamp, ht5, hpos, h]

/-- Witness for C6 with a read oracle succeeding exactly at position 150. -/
theorem C6_timestamp_strategy_witness :
    ((fun p : ℤ => p == 150) 150 = true) ∧
    extract_at_timestamp 30 (fun p : ℤ => p == 150) (.str ("00:00:05".toList)) .jpg
      = ⟨.ok "frame_at_00-00-05.jpg", [(150, "frame_at_00-00-05.jpg")], true⟩ :=
  ⟨by decide, (C6_timestamp_strategy (fun p : ℤ => p == 150)).2.1 (by decide)⟩

/-- C7: the batch driver's interval-mode step and the single-video
strategy's step disagree on some metadata: with `fps = 30`, `T = 300`
(duration 10 s) and `interval_seconds = 3`, the strategy computes
`max(1, ⌊30 * 3⌋) = 90` while the batch driver computes
`max(1, 300 // ⌊10 / 3⌋) = 100`. -/
theorem C7_interval_refinement :
    ∃ (total_frames : ℤ) (fps interval_seconds : ℚ),
      0 < fps ∧ 0 < interval_seconds ∧
      batch_interval_step total_frames (get_duration total_frames fps)
          interval_seconds
        ≠ .ok (strategy_interval_step fps interval_seconds) := by
  refine ⟨300, 30, 3, by norm_num, by norm_num, ?_⟩
  have hdur : get_duration 300 30 = 10 := by norm_num [get_duration]
  have hstep : strategy_interval_step 30 3 = 90 := by
    norm_num [strategy_interval_step, pyInt]
  have hest : pyInt ((10 : ℚ) / 3) = 3 := by norm_num [pyInt]
  have hbatch : batch_interval_step 300 10 3 = .ok 100 := by
    show (match pyFloorDiv 300 (pyInt ((10 : ℚ) / 3)) with
      | .ok q => Except.ok (max 1 q)
      | .error e => Except.error e) = .ok 100
    rw [hest]
    rfl
  rw [hdur, hbatch, hstep]
  intro h
  exact absurd (Except.ok.inj h) (by decide)

/-- C8 as stated is false: when the read at the target position fails,
`extract_at_timestamp` raises `ValueError` before reaching
`self.cap.release()`, so the decoder context is not released on that exit
path. -/
theorem C8_counterexample :
    (extract_at_timestamp 30 (fun _ => false) (.str ("5".toList)) .jpg).result
        = .error .valueError ∧
    (extract_at_timestamp 30 (fun _ => false) (.str ("5".toList)) .jpg).released
        = false :=
  ⟨rfl, rfl⟩

/-- C8 amended: `extract_by_count` releases the context whenever it opened
it, and `extract_by_interval` releases it on its only exit path — whenever
its loop reaches the `break` (a failed read) the context is released — but
`extract_at_timestamp` releases it exactly on its success path; all its
raising paths (parse failure, failed read, `AttributeError` on the file
name) leak the context. -/
theorem C8_release (T c : ℤ) (read : ℤ → Bool) (fmt : OutputFormat)
    (fps interval_seconds : ℚ) (ts : PyVal) (n fuel : ℕ) :
    ((extract_by_count T read c fmt).opened = true →
      (extract_by_count T read c fmt).released = true) ∧
    (read ((n : ℤ) * strategy_interval_step fps interval_seconds) = false →
      n < fuel →
      (extract_by_interval_run fps interval_seconds read fmt fuel).released
        = true) ∧
    ((extract_at_timestamp fps read ts fmt).released = true ↔
      (extract_at_timestamp fps read ts fmt).result.isOk = true) := by
  refine ⟨?_, ?_, ?_⟩
  · intro h
    by_cases hc : c < 1
    · simp [extract_by_count, hc] at h
    · simp [extract_by_count, hc]
  · intro hfail hfuel
    show interval_breaks (strategy_interval_step fps interval_seconds)
      read 0 fuel = true
    exact interval_breaks_of_fail _ read fuel 0 n hfuel (by simpa using hfail)
  · unfold extract_at_timestamp
    cases ht : targetTime ts with
    | none => simp [Except.isOk, Except.toBool]
    | some t =>
        by_cases hr : read (timestampPosition fps t) = true
        · simp only [hr, if_true]
          cases hf : timestampFilename ts fmt with
          | ok p => simp [Except.isOk, Except.toBool]
          | error e => simp [Except.isOk, Except.toBool]
        · simp [hr, Except.isOk, Except.toBool]

/-- Witness for C8 amended: a count extraction that opened the video did
release it, and an interval extraction whose second read fails released it
on the break path. -/
theorem C8_release_witness :
    ((extract_by_count 10 (fun p : ℤ => p == 0) 3 .jpg).opened = true ∧
      (extract_by_count 10 (fun p : ℤ => p == 0) 3 .jpg).released = true) ∧
    ((fun p : ℤ => p == 0) ((1 : ℤ) * strategy_interval_step 1 1) = false ∧
      (extract_by_interval_run 1 1 (fun p : ℤ => p == 0) .jpg 3).released
        = true) := by
  have h := C8_release 10 3 (fun p : ℤ => p == 0) .jpg 1 1 (.str ("5".toList)) 1 3
  have hstep : strategy_interval_step 1 1 = 1 := by
    norm_num [strategy_interval_step, pyInt]
  have hfail : (fun p : ℤ => p == 0) ((1 : ℤ) * strategy_interval_step 1 1)
      = false := by
    rw [hstep]; decide
  exact ⟨⟨rfl, h.1 rfl⟩, hfail, h.2.1 hfail (by norm_num)⟩

/-- C9: implicit — in the batch driver's interval mode, when
`interval_seconds` exceeds the duration, `estimated_frames = int(duration /
interval_seconds)` is 0, `total_video_frames // 0` raises
`ZeroDivisionError`, the generic per-video handler catches it, the video is
marked failed and no frames are written. -/
theorem C9_interval_zero_division (total_frames : ℤ)
    (duration interval_seconds : ℚ) (read : ℤ → Bool) (fmt : OutputFormat)
    (fuel : ℕ) (h0 : 0 ≤ duration) (h1 : duration < interval_seconds) :
    pyInt (duration / interval_seconds) = 0 ∧
    batch_interval_step total_frames duration interval_seconds
      = .error .zeroDivisionError ∧
    process_video_interval total_frames duration interval_seconds read fmt fuel
      = (false, []) := by
  have hip : 0 < interval_seconds := lt_of_le_of_lt h0 h1
  have hq0 : 0 ≤ duration / interval_seconds := div_nonneg h0 (le_of_lt hip)
  have hq1 : duration / interval_seconds < 1 := (div_lt_one hip).mpr h1
  have hz := pyInt_eq_zero hq0 hq1
  refine ⟨hz, ?_, ?_⟩
  · simp [batch_interval_step, hz, pyFloorDiv]
  · simp [process_video_interval, batch_interval_step, hz, pyFloorDiv]

/-- Witness for C9 at `T = 300`, duration 10 s, interval 20 s. -/
theorem C9_interval_zero_division_witness :
    (0 : ℚ) ≤ 10 ∧ (10 : ℚ) < 20 ∧
    process_video_interval 300 10 20 (fun _ => true) .jpg 5 = (false, []) :=
  ⟨by norm_num, by norm_num,
    (C9_interval_zero_division 300 10 20 (fun _ => true) .jpg 5
      (by norm_num) (by norm_num)).2.2⟩

/-- C10: implicit — through the CLI, `--timestamp` reaches
`extract_at_timestamp` as the float produced by `parse_timestamp`; after a
successful frame read, building the file name calls `.replace` on that
float and raises `AttributeError`: no image is written, the decoder context
is not released, and the per-video driver reports the video as failed. -/
theorem C10_cli_timestamp_attribute_error (s : List Char) (t fps : ℚ)
    (read : ℤ → Bool) (fmt : OutputFormat)
    (_hparse : parse_timestamp s = some t)
    (hread : read (timestampPosition fps t) = true) :
    (extract_at_timestamp fps read (.float t) fmt).result
        = .error .attributeError ∧
    (extract_at_timestamp fps read (.float t) fmt).written = [] ∧
    (extract_at_timestamp fps read (.float t) fmt).released = false ∧
    process_video_timestamp fps read (.float t) fmt = (false, []) := by
  have hE : extract_at_timestamp fps read (.float t) fmt
      = ⟨.error .attributeError, [], false⟩ := by
    simp [extract_at_timestamp, targetTime, hread, timestampFilename]
  exact ⟨by rw [hE], by rw [hE], by rw [hE],
    by simp [process_video_timestamp, hE]⟩

/-- Witness for C10 at `--timestamp "90"`, `fps = 1`, position 90 readable. -/
theorem C10_cli_timestamp_witness :
    parse_timestamp ("90".toList) = some 90 ∧
    ((extract_at_timestamp 1 (fun p : ℤ => p == 90) (.float 90) .jpg).result
        = .error .attributeError ∧
      (extract_at_timestamp 1 (fun p : ℤ => p == 90) (.float 90) .jpg).written
        = [] ∧
      (extract_at_timestamp 1 (fun p : ℤ => p == 90) (.float 90) .jpg).released
        = false ∧
      process_video_timestamp 1 (fun p : ℤ => p == 90) (.float 90) .jpg
        = (false, [])) := by
  have hp : parse_timestamp ("90".toList) = some 90 := by
    rw [show parse_timestamp ("90".toList)
        = some ((natOfDigits ['9', '0'] : ℚ)) from rfl,
      show natOfDigits ['9', '0'] = 90 from rfl]
    norm_num
  have hpos : timestampPosition 1 90 = 90 := by
    norm_num [timestampPosition, pyInt]
  have hr : (fun p : ℤ => p == 90) (timestampPosition 1 90) = true := by
    rw [hpos]; decide
  exact ⟨hp, C10_cli_timestamp_attribute_error ("90".toList) 90 1
    (fun p : ℤ => p == 90) .jpg hp hr⟩

end VideoToImage
